import Mathlib

/-!
Shallow embedding of `dsp_analyzer.py` (TV_SCREEN_DSP): WAV decoding,
RMS power, FFT-based dominant-frequency and spectral-flatness estimation,
and the rule-based crack/noise classifier, together with proofs of the
specified behaviour.

Python floats are modelled as real numbers, numpy arrays as lists of reals,
16-bit PCM frames as lists of integers.  The `wave`-library parse of the
file on disk is modelled by an `Option WavFile` input (`none` = the file
cannot be opened or parsed, which the Python code turns into the sentinel
via its `except` clause); an unexpected internal failure inside the
top-level `try` of `analyze_audio` is modelled by the `AnalyzeInput.exn`
case.
-/

namespace DspAnalyzer

open Real

/-- Header fields and decoded 16-bit frame data of a WAV file, as exposed by
the `wave` module plus `np.frombuffer(raw_data, dtype=np.int16)`:
`data` is the channel-interleaved list of signed 16-bit sample values. -/
structure WavFile where
  nChannels : ℕ
  sampleWidth : ℕ
  framerate : ℕ
  data : List ℤ

/-- Input to the top-level `analyze_audio`: either a path whose `wave.open`
parse outcome is given (`none` when opening/parsing fails), or an
unexpected exception raised inside the top-level `try` block. -/
inductive AnalyzeInput where
  | file (f : Option WavFile)
  | exn

/-- The five-field result dictionary returned by `analyze_audio`. -/
structure AnalysisResult where
  frequency : ℝ
  power : ℝ
  surface_tension : ℝ
  noise_status : String
  confidence : ℝ

noncomputable section

/-- `xs[::2]` — every other element starting at index 0. -/
def everyOther : List ℤ → List ℤ
  | [] => []
  | [a] => [a]
  | a :: _ :: rest => a :: everyOther rest

/-- Channel-interleaved stereo frame data built from a left and a right
channel (the layout of 2-channel PCM frames). -/
def interleave : List ℤ → List ℤ → List ℤ
  | a :: as, b :: bs => a :: b :: interleave as bs
  | _, _ => []

/-- `read_wav`: decode a WAV file into normalized mono samples plus the
sample rate.  `none` (unopenable/unparseable file) and any sample width
other than 2 bytes yield the sentinel `([], 0)`; stereo data is downmixed
by keeping every other sample starting at index 0; samples are normalized
by dividing by 32768.0. -/
def read_wav : Option WavFile → List ℝ × ℕ
  | none => ([], 0)
  | some w =>
    if w.sampleWidth = 2 then
      let samples := w.data
      let samples := if w.nChannels = 2 then everyOther samples else samples
      (samples.map (fun (v : ℤ) => (v : ℝ) / 32768.0), w.framerate)
    else ([], 0)

/-- `np.mean` of a list of reals (only used on nonempty lists, matching the
guarded call sites in the Python source). -/
def listMean (l : List ℝ) : ℝ := l.sum / l.length

/-- The RMS value `np.sqrt(np.mean(samples ** 2))` computed inside
`calculate_power_db`. -/
def rmsOf (samples : List ℝ) : ℝ := Real.sqrt (listMean (samples.map (fun x => x ^ 2)))

/-- `calculate_power_db`: RMS power in dB, with the -100.0 floor for an
empty list and for RMS below 1e-10. -/
def calculate_power_db (samples : List ℝ) : ℝ :=
  if samples.length = 0 then -100.0
  else
    let rms := rmsOf samples
    if rms < 1e-10 then -100.0
    else 20 * Real.logb 10 rms

/-- `np.hanning(M)`, including numpy's guards for `M < 1` and `M == 1`. -/
def hanning (M : ℕ) : List ℝ :=
  if M < 1 then []
  else if M = 1 then [1.0]
  else (List.range M).map
    (fun (i : ℕ) => 0.5 - 0.5 * Real.cos (2 * Real.pi * (i : ℝ) / ((M : ℝ) - 1)))

/-- `samples * np.hanning(len(samples))` — the Hann-windowed signal. -/
def windowed (samples : List ℝ) : List ℝ :=
  List.zipWith (fun a b => a * b) samples (hanning samples.length)

/-- Bin `k` of the discrete Fourier transform of a real signal,
`X_k = Σ_j x_j · exp(-2πi·j·k/n)` — the mathematical content of
`np.fft.rfft`. -/
def dftBin (x : List ℝ) (k : ℕ) : ℂ :=
  ∑ j in Finset.range x.length,
    (x.getD j 0 : ℂ) * Complex.exp (-(2 * Real.pi * Complex.I * j * k) / x.length)

/-- `np.abs(np.fft.rfft(x))`: magnitudes of the one-sided spectrum,
bins `0 .. n/2`. -/
def rfftMagnitudes (x : List ℝ) : List ℝ :=
  (List.range (x.length / 2 + 1)).map (fun k => Complex.abs (dftBin x k))

/-- `np.fft.rfftfreq(n, 1.0 / sample_rate)`: the center frequency
`k · rate / n` of each one-sided bin. -/
def rfftfreqs (n : ℕ) (sample_rate : ℕ) : List ℝ :=
  (List.range (n / 2 + 1)).map (fun (k : ℕ) => (k : ℝ) * sample_rate / n)

/-- `np.argmax` folded over (frequency, magnitude) pairs: keeps the first
pair of maximal magnitude, updating only on strict improvement. -/
def argmaxPairAux : ℝ × ℝ → List (ℝ × ℝ) → ℝ × ℝ
  | best, [] => best
  | best, q :: rest => argmaxPairAux (if best.2 < q.2 then q else best) rest

/-- `find_dominant_frequency_fft`: 0.0 below 100 samples; otherwise the
center frequency of the largest-magnitude bin strictly above 20 Hz, or 0.0
if no bin survives the cutoff. -/
def find_dominant_frequency_fft (samples : List ℝ) (sample_rate : ℕ) : ℝ :=
  if samples.length < 100 then 0.0
  else
    let magnitude := rfftMagnitudes (windowed samples)
    let freqs := rfftfreqs samples.length sample_rate
    let valid := (freqs.zip magnitude).filter (fun q => decide (20 < q.1))
    match valid with
    | [] => 0.0
    | q :: rest => (argmaxPairAux q rest).1

/-- The epsilon-augmented squared power spectrum built inside
`calculate_spectral_flatness_fft`: drop the DC bin of the magnitude
spectrum of the windowed signal, add 1e-10 to every magnitude, square. -/
def powerSpectrum (samples : List ℝ) : List ℝ :=
  (((rfftMagnitudes (windowed samples)).drop 1).map (fun m => m + 1e-10)).map
    (fun m => m ^ 2)

/-- `calculate_spectral_flatness_fft`: 0.0 below 100 samples; otherwise
`exp(mean(log power)) / mean(power)` over the epsilon-augmented squared
power spectrum, with a 0.0 early return when the arithmetic mean is below
1e-10. -/
def calculate_spectral_flatness_fft (samples : List ℝ) : ℝ :=
  if samples.length < 100 then 0.0
  else
    let power := powerSpectrum samples
    let geometric_mean := Real.exp (listMean (power.map Real.log))
    let arithmetic_mean := listMean power
    if arithmetic_mean < 1e-10 then 0.0
    else geometric_mean / arithmetic_mean

/-- `classify_noise`: the scored rule-based classifier, with the weak-signal
branch checked first and `crack_score` accumulated exactly as in the
source. -/
def classify_noise (frequency power_db surface_tension : ℝ) : String × ℝ :=
  if power_db < -40 then ("NOISE", 0.6)
  else
    let crack_score : ℝ := 0.0
    let crack_score :=
      if frequency > 2000 then crack_score + 0.3
      else if frequency > 1000 then crack_score + 0.15
      else crack_score
    let crack_score :=
      if surface_tension > 0.7 then crack_score + 0.4
      else if surface_tension > 0.5 then crack_score + 0.2
      else crack_score
    let crack_score :=
      if power_db > -15 then crack_score + 0.3
      else if power_db > -25 then crack_score + 0.15
      else crack_score
    if crack_score ≥ 0.6 then ("CRACK", min 0.95 crack_score)
    else if crack_score ≥ 0.3 then ("NORMAL", 0.65)
    else ("NORMAL", 0.8)

/-- The scored classifier rule set exactly as worded in the specification
(section 4.5, scored variant), with `crack_score` written as one sum of
three contributions.  Used only to compare `classify_noise` against the
spec's wording. -/
def classify_spec (frequency power_db surface_tension : ℝ) : String × ℝ :=
  if power_db < -40 then ("NOISE", 0.6)
  else
    let crack_score : ℝ :=
      (if frequency > 2000 then 0.3 else if frequency > 1000 then 0.15 else 0)
      + (if surface_tension > 0.7 then 0.4 else if surface_tension > 0.5 then 0.2 else 0)
      + (if power_db > -15 then 0.3 else if power_db > -25 then 0.15 else 0)
    if crack_score ≥ 0.6 then ("CRACK", min 0.95 crack_score)
    else if crack_score ≥ 0.3 then ("NORMAL", 0.65)
    else ("NORMAL", 0.8)

/-- `analyze_audio`: the orchestrating pipeline with its three
short-circuit exits and the top-level blanket `except` (the `.exn` case). -/
def analyze_audio : AnalyzeInput → AnalysisResult
  | .exn =>
    { frequency := 0.0, power := -100.0, surface_tension := 0.0,
      noise_status := "NOISE", confidence := 0.0 }
  | .file f =>
    let samples := (read_wav f).1
    let sample_rate := (read_wav f).2
    if samples.length = 0 then
      { frequency := 0.0, power := -100.0, surface_tension := 0.0,
        noise_status := "NOISE", confidence := 0.0 }
    else
      let power_db := calculate_power_db samples
      if power_db < -50 then
        { frequency := 0.0, power := power_db, surface_tension := 0.0,
          noise_status := "NOISE", confidence := 0.5 }
      else
        let frequency := find_dominant_frequency_fft samples sample_rate
        let surface_tension := calculate_spectral_flatness_fft samples
        let nc := classify_noise frequency power_db surface_tension
        { frequency := frequency, power := power_db, surface_tension := surface_tension,
          noise_status := nc.1, confidence := nc.2 }

end

/-! ### Helper lemmas -/

theorem everyOther_interleave (L R : List ℤ) (h : R.length = L.length) :
    everyOther (interleave L R) = L := by
  induction L generalizing R with
  | nil =>
    cases R with
    | nil => rfl
    | cons b bs => simp at h
  | cons a as ih =>
    cases R with
    | nil => simp at h
    | cons b bs =>
      simp only [interleave, everyOther]
      rw [ih bs (by simpa using h)]

theorem list_sum_getD (l : List ℝ) :
    l.sum = ∑ i in Finset.range l.length, l.getD i 0 := by
  induction l with
  | nil => simp
  | cons a t ih =>
    rw [List.sum_cons, List.length_cons, Finset.sum_range_succ']
    simp only [List.getD_cons_succ, List.getD_cons_zero]
    rw [← ih]
    exact add_comm a t.sum

theorem list_map_sum_getD (g : ℝ → ℝ) (l : List ℝ) :
    (l.map g).sum = ∑ i in Finset.range l.length, g (l.getD i 0) := by
  induction l with
  | nil => simp
  | cons a t ih =>
    rw [List.map_cons, List.sum_cons, List.length_cons, Finset.sum_range_succ']
    simp only [List.getD_cons_succ, List.getD_cons_zero]
    rw [← ih]
    exact add_comm (g a) _

theorem getD_mem_of_lt (l : List ℝ) (i : ℕ) (h : i < l.length) : l.getD i 0 ∈ l := by
  rw [List.getD_eq_getElem?_getD, List.getElem?_eq_getElem h, Option.getD_some]
  exact List.getElem_mem h

/-- AM-GM for a list of positive reals, in the shape used by
`calculate_spectral_flatness_fft`: the exponential of the mean of the
logarithms is at most the arithmetic mean.  Proved via Jensen's inequality
for the convex exponential. -/
theorem exp_listMean_log_le (l : List ℝ) (hne : l ≠ []) (hpos : ∀ x ∈ l, 0 < x) :
    Real.exp (listMean (l.map Real.log)) ≤ listMean l := by
  have hn : 0 < l.length := List.length_pos.mpr hne
  have hn' : ((l.length : ℝ)) ≠ 0 := Nat.cast_ne_zero.mpr hn.ne'
  have hw : ∀ i ∈ Finset.range l.length, (0:ℝ) ≤ (l.length : ℝ)⁻¹ := fun i _ => by positivity
  have hw1 : ∑ _i in Finset.range l.length, ((l.length : ℝ))⁻¹ = 1 := by
    rw [Finset.sum_const, Finset.card_range, nsmul_eq_mul, mul_inv_cancel₀ hn']
  have hmem : ∀ i ∈ Finset.range l.length,
      Real.log (l.getD i 0) ∈ (Set.univ : Set ℝ) := fun _ _ => Set.mem_univ _
  have hjen := convexOn_exp.map_sum_le hw hw1 hmem
  have hL : ∑ i in Finset.range l.length, (l.length : ℝ)⁻¹ • Real.log (l.getD i 0)
      = listMean (l.map Real.log) := by
    simp only [smul_eq_mul]
    rw [← Finset.mul_sum, listMean, List.length_map, list_map_sum_getD, div_eq_inv_mul]
  have hR : ∑ i in Finset.range l.length, (l.length : ℝ)⁻¹ • Real.exp (Real.log (l.getD i 0))
      = listMean l := by
    have hcong : ∀ i ∈ Finset.range l.length,
        (l.length : ℝ)⁻¹ • Real.exp (Real.log (l.getD i 0)) =
          (l.length : ℝ)⁻¹ * l.getD i 0 := by
      intro i hi
      rw [Finset.mem_range] at hi
      rw [smul_eq_mul, Real.exp_log (hpos _ (getD_mem_of_lt l i hi))]
    rw [Finset.sum_congr rfl hcong, ← Finset.mul_sum, ← list_sum_getD, listMean, div_eq_inv_mul]
  rw [hL, hR] at hjen
  exact hjen

theorem hanning_length (M : ℕ) : (hanning M).length = M := by
  rw [hanning]
  split_ifs with h1 h2
  · simp only [List.length_nil]
    omega
  · simp [h2]
  · rw [List.length_map, List.length_range]

theorem windowed_length (s : List ℝ) : (windowed s).length = s.length := by
  rw [windowed, List.length_zipWith, hanning_length, min_self]

theorem rfftMagnitudes_length (x : List ℝ) :
    (rfftMagnitudes x).length = x.length / 2 + 1 := by
  simp [rfftMagnitudes]

theorem powerSpectrum_length (s : List ℝ) :
    (powerSpectrum s).length = s.length / 2 := by
  simp [powerSpectrum, List.length_drop, rfftMagnitudes_length, windowed_length]

theorem powerSpectrum_pos (s : List ℝ) : ∀ x ∈ powerSpectrum s, 0 < x := by
  intro x hx
  rw [powerSpectrum] at hx
  obtain ⟨a, ha, rfl⟩ := List.mem_map.mp hx
  obtain ⟨m0, hm0, rfl⟩ := List.mem_map.mp ha
  have hmem : m0 ∈ rfftMagnitudes (windowed s) := List.drop_subset _ _ hm0
  rw [rfftMagnitudes] at hmem
  obtain ⟨k, _, rfl⟩ := List.mem_map.mp hmem
  have h0 : (0:ℝ) ≤ Complex.abs (dftBin (windowed s) k) := Complex.abs.nonneg _
  have h1 : (0:ℝ) < Complex.abs (dftBin (windowed s) k) + 1e-10 := by
    have : (0:ℝ) < 1e-10 := by norm_num
    linarith
  exact pow_pos h1 2

theorem classify_noise_fst (f p s : ℝ) :
    (classify_noise f p s).1 = "CRACK" ∨ (classify_noise f p s).1 = "NORMAL" ∨
      (classify_noise f p s).1 = "NOISE" := by
  by_cases h : p < -40
  · simp [classify_noise, if_pos h]
  · have key : ∀ sc : ℝ,
        ((if sc ≥ 0.6 then (("CRACK" : String), min 0.95 sc)
          else if sc ≥ 0.3 then (("NORMAL" : String), (0.65 : ℝ))
          else ("NORMAL", 0.8)).1 = "CRACK" ∨
        (if sc ≥ 0.6 then (("CRACK" : String), min 0.95 sc)
          else if sc ≥ 0.3 then (("NORMAL" : String), (0.65 : ℝ))
          else ("NORMAL", 0.8)).1 = "NORMAL" ∨
        (if sc ≥ 0.6 then (("CRACK" : String), min 0.95 sc)
          else if sc ≥ 0.3 then (("NORMAL" : String), (0.65 : ℝ))
          else ("NORMAL", 0.8)).1 = "NOISE") := by
      intro sc
      split_ifs <;> simp
    simp only [classify_noise, if_neg h]
    exact key _

theorem logb_41_8192_lt : Real.logb 10 ((41:ℝ)/8192) < -2 := by
  have h10 : (1:ℝ) < 10 := by norm_num
  rw [Real.logb_lt_iff_lt_rpow h10 (by norm_num : (0:ℝ) < 41/8192)]
  have h2 : (10:ℝ) ^ (-2:ℝ) = 1/100 := by
    rw [show ((-2:ℝ)) = ((-2:ℤ):ℝ) by norm_num, Real.rpow_intCast]
    norm_num
  rw [h2]
  norm_num

theorem le_logb_41_8192 : (-(5/2) : ℝ) ≤ Real.logb 10 ((41:ℝ)/8192) := by
  have h10 : (1:ℝ) < 10 := by norm_num
  rw [Real.le_logb_iff_rpow_le h10 (by norm_num : (0:ℝ) < 41/8192)]
  have h1 : ((10:ℝ) ^ (-(5/2):ℝ)) = ((10:ℝ) ^ (-5:ℝ)) ^ ((1:ℝ)/2) := by
    rw [← Real.rpow_mul (by norm_num : (0:ℝ) ≤ 10)]
    norm_num
  have h2 : ((10:ℝ) ^ (-5:ℝ)) = 1/100000 := by
    rw [show ((-5:ℝ)) = ((-5:ℤ):ℝ) by norm_num, Real.rpow_intCast]
    norm_num
  calc (10:ℝ) ^ (-(5/2):ℝ) = ((1:ℝ)/100000) ^ ((1:ℝ)/2) := by rw [h1, h2]
    _ = Real.sqrt (1/100000) := (Real.sqrt_eq_rpow _).symm
    _ ≤ 41/8192 := by
        rw [show (41:ℝ)/8192 = Real.sqrt ((41/8192)^2) from
          (Real.sqrt_sq (by norm_num)).symm]
        exact Real.sqrt_le_sqrt (by norm_num)

theorem rmsOf_weak_const : rmsOf (List.replicate 50 ((41:ℝ)/8192)) = 41/8192 := by
  have hmean : listMean ((List.replicate 50 ((41:ℝ)/8192)).map (fun x => x ^ 2)) =
      ((41:ℝ)/8192) ^ 2 := by
    rw [List.map_replicate, listMean, List.sum_replicate, List.length_replicate]
    norm_num
  rw [rmsOf, hmean, Real.sqrt_sq (by norm_num)]

theorem power_db_weak_const :
    calculate_power_db (List.replicate 50 ((41:ℝ)/8192)) =
      20 * Real.logb 10 ((41:ℝ)/8192) := by
  rw [calculate_power_db]
  simp only [List.length_replicate, rmsOf_weak_const]
  norm_num

theorem read_wav_weak_const :
    read_wav (some ⟨1, 2, 44100, List.replicate 50 (164:ℤ)⟩) =
      (List.replicate 50 ((41:ℝ)/8192), 44100) := by
  rw [read_wav]
  simp only [List.map_replicate]
  norm_num

/-! ### Claim theorems -/

/-- Claim C2: for every input whose decoded sample sequence has length 0,
`analyze_audio` returns exactly the record
(0.0, -100.0, 0.0, "NOISE", 0.0). -/
theorem claim_C2_empty_samples (f : Option WavFile)
    (h : (read_wav f).1.length = 0) :
    analyze_audio (.file f) =
      { frequency := 0.0, power := -100.0, surface_tension := 0.0,
        noise_status := "NOISE", confidence := 0.0 } := by
  simp [analyze_audio, h]

theorem claim_C2_empty_samples_witness :
    (read_wav none).1.length = 0 ∧
      analyze_audio (.file none) =
        { frequency := 0.0, power := -100.0, surface_tension := 0.0,
          noise_status := "NOISE", confidence := 0.0 } :=
  ⟨by simp [read_wav], claim_C2_empty_samples none (by simp [read_wav])⟩

/-- Claim C9: `calculate_power_db` returns -100.0 when the sequence is empty
or when RMS = sqrt(mean(sample²)) < 1e-10 (in particular exactly -100.0 for
an all-zero sequence), and otherwise returns 20·log10(RMS) with no upper
clamp. -/
theorem claim_C9_power_db :
    (∀ samples : List ℝ, samples.length = 0 → calculate_power_db samples = -100.0) ∧
    (∀ samples : List ℝ, rmsOf samples < 1e-10 → calculate_power_db samples = -100.0) ∧
    (∀ samples : List ℝ, samples ≠ [] → ¬ rmsOf samples < 1e-10 →
      calculate_power_db samples = 20 * Real.logb 10 (rmsOf samples)) ∧
    (∀ n : ℕ, calculate_power_db (List.replicate n (0:ℝ)) = -100.0) := by
  have hzero : ∀ n : ℕ, rmsOf (List.replicate n (0:ℝ)) = 0 := by
    intro n
    simp [rmsOf, listMean, List.map_replicate, List.sum_replicate]
  refine ⟨?_, ?_, ?_, ?_⟩
  · intro s h
    simp [calculate_power_db, h]
  · intro s h
    by_cases h0 : s.length = 0 <;> simp [calculate_power_db, h0, h]
  · intro s hne hr
    have h0 : s.length ≠ 0 := by simpa [List.length_eq_zero] using hne
    simp [calculate_power_db, h0, hr]
  · intro n
    by_cases h0 : (List.replicate n (0:ℝ)).length = 0
    · simp [calculate_power_db, h0]
    · rw [calculate_power_db]
      simp only [h0, if_false, hzero n]
      norm_num

theorem claim_C9_power_db_witness :
    ([(1:ℝ)] ≠ []) ∧ (¬ rmsOf [(1:ℝ)] < 1e-10) ∧
      calculate_power_db [(1:ℝ)] = 20 * Real.logb 10 (rmsOf [(1:ℝ)]) := by
  have h1 : rmsOf [(1:ℝ)] = 1 := by simp [rmsOf, listMean]
  exact ⟨by simp, by rw [h1]; norm_num,
    claim_C9_power_db.2.2.1 [(1:ℝ)] (by simp) (by rw [h1]; norm_num)⟩

/-- Claim C8: `read_wav` never raises: an unopenable/unparseable file or a
sample width other than 2 bytes yields the sentinel `([], 0)`; on success
it returns the normalized (downmixed) samples and the file's rate. -/
theorem claim_C8_read_wav_total :
    read_wav none = ([], 0) ∧
    (∀ w : WavFile, w.sampleWidth ≠ 2 → read_wav (some w) = ([], 0)) ∧
    (∀ w : WavFile, w.sampleWidth = 2 →
      read_wav (some w) =
        ((if w.nChannels = 2 then everyOther w.data else w.data).map
          (fun (v : ℤ) => (v : ℝ) / 32768.0), w.framerate)) := by
  refine ⟨rfl, ?_, ?_⟩ <;> intro w h <;> simp [read_wav, h]

theorem claim_C8_read_wav_total_witness :
    read_wav (some ⟨1, 1, 8000, [7]⟩) = ([], 0) :=
  claim_C8_read_wav_total.2.1 ⟨1, 1, 8000, [7]⟩ (by norm_num)

/-- Claim C7: for a 16-bit 2-channel WAV, the decoded mono sequence is the
left channel exactly — every other interleaved sample starting at index 0,
each divided by 32768.0 — not an average of the channels. -/
theorem claim_C7_stereo_left_channel (L R : List ℤ) (rate : ℕ)
    (h : R.length = L.length) :
    read_wav (some ⟨2, 2, rate, interleave L R⟩) =
      (L.map (fun (v : ℤ) => (v : ℝ) / 32768.0), rate) := by
  simp [read_wav, everyOther_interleave L R h]

theorem claim_C7_stereo_left_channel_witness :
    read_wav (some ⟨2, 2, 44100, interleave [1, -5] [7, 9]⟩) =
      ([(1:ℝ) / 32768.0, (-5:ℝ) / 32768.0], 44100) := by
  simpa using claim_C7_stereo_left_channel [1, -5] [7, 9] 44100 rfl

/-- Claim C4: the scored classifier follows the contractual rule set of the
specification exactly, and in particular maps (2500, -10, 0.8) to
("CRACK", 0.95) and (500, -30, 0.2) to ("NORMAL", 0.8). -/
theorem claim_C4_classifier_rules :
    (∀ frequency power_db surface_tension : ℝ,
        classify_noise frequency power_db surface_tension =
          classify_spec frequency power_db surface_tension) ∧
    classify_noise 2500 (-10) 0.8 = ("CRACK", 0.95) ∧
    classify_noise 500 (-30) 0.2 = ("NORMAL", 0.8) := by
  refine ⟨?_, ?_, ?_⟩
  · intro f p s
    by_cases h : p < -40
    · simp only [classify_noise, classify_spec, if_pos h]
    · have push : ∀ (c d : Prop) (inst1 : Decidable c) (inst2 : Decidable d) (x a b : ℝ),
          (if c then x + a else if d then x + b else x) =
            x + (if c then a else if d then b else (0 : ℝ)) := by
        intro c d inst1 inst2 x a b
        split_ifs <;> simp
      simp only [classify_noise, classify_spec, if_neg h, push,
        (by norm_num : (0.0 : ℝ) = 0), zero_add]
  · norm_num [classify_noise, min_def]
  · norm_num [classify_noise]

/-- Claim C10 (implicit): for every real input triple, the confidence
returned by `classify_noise` lies in [0.6, 0.95]. -/
theorem claim_C10_confidence_bounds (frequency power_db surface_tension : ℝ) :
    0.6 ≤ (classify_noise frequency power_db surface_tension).2 ∧
      (classify_noise frequency power_db surface_tension).2 ≤ 0.95 := by
  by_cases h : power_db < -40
  · simp only [classify_noise, if_pos h]
    norm_num
  · have key : ∀ sc : ℝ,
        0.6 ≤ (if sc ≥ 0.6 then (("CRACK" : String), min 0.95 sc)
          else if sc ≥ 0.3 then (("NORMAL" : String), (0.65 : ℝ))
          else ("NORMAL", 0.8)).2 ∧
        (if sc ≥ 0.6 then (("CRACK" : String), min 0.95 sc)
          else if sc ≥ 0.3 then (("NORMAL" : String), (0.65 : ℝ))
          else ("NORMAL", 0.8)).2 ≤ 0.95 := by
      intro sc
      split_ifs with h1 h2 <;> refine ⟨?_, ?_⟩
      · exact le_min (by norm_num) h1
      · exact min_le_left _ _
      · norm_num
      · norm_num
      · norm_num
      · norm_num
    simp only [classify_noise, if_neg h]
    exact key _

/-- Claim C1: the pipeline is total — for every input it returns a record
with all five fields (the label drawn from the fixed label set), and any
unexpected internal failure (the top-level `except` path) is converted to
exactly the universal fallback record (0.0, -100.0, 0.0, "NOISE", 0.0). -/
theorem claim_C1_total_and_fallback :
    (∀ inp : AnalyzeInput,
        ((analyze_audio inp).noise_status = "CRACK" ∨
          (analyze_audio inp).noise_status = "NORMAL" ∨
          (analyze_audio inp).noise_status = "NOISE") ∧
        analyze_audio inp =
          { frequency := (analyze_audio inp).frequency,
            power := (analyze_audio inp).power,
            surface_tension := (analyze_audio inp).surface_tension,
            noise_status := (analyze_audio inp).noise_status,
            confidence := (analyze_audio inp).confidence }) ∧
    analyze_audio .exn =
      { frequency := 0.0, power := -100.0, surface_tension := 0.0,
        noise_status := "NOISE", confidence := 0.0 } := by
  refine ⟨fun inp => ⟨?_, rfl⟩, rfl⟩
  cases inp with
  | exn => simp [analyze_audio]
  | file f =>
    simp only [analyze_audio]
    split_ifs <;> simp only [] <;>
      first
        | simp
        | exact classify_noise_fst _ _ _

/-- Claim C3: any input with a nonempty decoded sample sequence whose
computed power_db is below -50 yields frequency 0.0, power equal to that
power_db, surface_tension 0.0, status "NOISE" and confidence exactly 0.5,
regardless of spectral content. -/
theorem claim_C3_weak_signal_gate (f : Option WavFile) (s : List ℝ) (r : ℕ)
    (hread : read_wav f = (s, r)) (hne : s.length ≠ 0)
    (hweak : calculate_power_db s < -50) :
    analyze_audio (.file f) =
      { frequency := 0.0, power := calculate_power_db s, surface_tension := 0.0,
        noise_status := "NOISE", confidence := 0.5 } := by
  simp [analyze_audio, hread, hne, hweak]

theorem claim_C3_weak_signal_gate_witness :
    read_wav (some ⟨1, 2, 8000, ([0] : List ℤ)⟩) = ([(0:ℝ)], 8000) ∧
    ([(0:ℝ)].length ≠ 0) ∧ calculate_power_db [(0:ℝ)] < -50 ∧
    analyze_audio (.file (some ⟨1, 2, 8000, ([0] : List ℤ)⟩)) =
      { frequency := 0.0, power := calculate_power_db [(0:ℝ)],
        surface_tension := 0.0, noise_status := "NOISE", confidence := 0.5 } := by
  have hread : read_wav (some ⟨1, 2, 8000, ([0] : List ℤ)⟩) = ([(0:ℝ)], 8000) := by
    simp [read_wav]
  have hrms : rmsOf [(0:ℝ)] = 0 := by simp [rmsOf, listMean]
  have hpw : calculate_power_db [(0:ℝ)] < -50 := by
    rw [calculate_power_db]
    simp only [hrms]
    norm_num
  exact ⟨hread, by simp, hpw,
    claim_C3_weak_signal_gate _ _ _ hread (by simp) hpw⟩

/-- Claim C5: for every sample sequence of at least 100 samples, the
transform-domain surface_tension estimator returns 0.0 when the arithmetic
mean of the epsilon-augmented squared power spectrum is below 1e-10, and
otherwise returns geometric_mean(power)/arithmetic_mean(power), a value in
(0, 1]. -/
theorem claim_C5_flatness_bounds (samples : List ℝ) (h : 100 ≤ samples.length) :
    (listMean (powerSpectrum samples) < 1e-10 →
      calculate_spectral_flatness_fft samples = 0) ∧
    (1e-10 ≤ listMean (powerSpectrum samples) →
      calculate_spectral_flatness_fft samples =
        Real.exp (listMean ((powerSpectrum samples).map Real.log)) /
          listMean (powerSpectrum samples) ∧
      0 < calculate_spectral_flatness_fft samples ∧
      calculate_spectral_flatness_fft samples ≤ 1) := by
  have hlen : ¬ samples.length < 100 := not_lt.mpr h
  constructor
  · intro hlow
    simp [calculate_spectral_flatness_fft, hlen, hlow]
    norm_num
  · intro hhigh
    have hnlt : ¬ listMean (powerSpectrum samples) < 1e-10 := not_lt.mpr hhigh
    have heq : calculate_spectral_flatness_fft samples =
        Real.exp (listMean ((powerSpectrum samples).map Real.log)) /
          listMean (powerSpectrum samples) := by
      simp [calculate_spectral_flatness_fft, hlen, hnlt]
    have hPne : powerSpectrum samples ≠ [] := by
      have h2 : 50 ≤ (powerSpectrum samples).length := by
        rw [powerSpectrum_length]
        omega
      intro hc
      rw [hc] at h2
      simp at h2
    have hmean_pos : 0 < listMean (powerSpectrum samples) :=
      lt_of_lt_of_le (by norm_num) hhigh
    have hamgm := exp_listMean_log_le (powerSpectrum samples) hPne (powerSpectrum_pos samples)
    refine ⟨heq, ?_, ?_⟩
    · rw [heq]
      exact div_pos (Real.exp_pos _) hmean_pos
    · rw [heq, div_le_one hmean_pos]
      exact hamgm

theorem claim_C5_flatness_bounds_witness :
    100 ≤ (List.replicate 100 (0:ℝ)).length ∧
    ((listMean (powerSpectrum (List.replicate 100 (0:ℝ))) < 1e-10 →
      calculate_spectral_flatness_fft (List.replicate 100 (0:ℝ)) = 0) ∧
    (1e-10 ≤ listMean (powerSpectrum (List.replicate 100 (0:ℝ))) →
      calculate_spectral_flatness_fft (List.replicate 100 (0:ℝ)) =
        Real.exp (listMean ((powerSpectrum (List.replicate 100 (0:ℝ))).map Real.log)) /
          listMean (powerSpectrum (List.replicate 100 (0:ℝ))) ∧
      0 < calculate_spectral_flatness_fft (List.replicate 100 (0:ℝ)) ∧
      calculate_spectral_flatness_fft (List.replicate 100 (0:ℝ)) ≤ 1)) :=
  ⟨by simp, claim_C5_flatness_bounds (List.replicate 100 (0:ℝ)) (by simp)⟩

/-- Claim C6 as frozen is false on the code: for a pipeline run whose
computed power_db lies in [-50, -40) the -50 gate does NOT exit (its
condition is `power_db < -50`), the classifier IS invoked, and its
weak-signal branch returns ("NOISE", 0.6) — not the gate record with
confidence 0.5.  Concrete counterexample: 50 constant samples of value
164/32768, whose power_db = 20·log10(41/8192) ≈ -46 dB. -/
theorem claim_C6_gate_counterexample :
    (-50 ≤ calculate_power_db (List.replicate 50 ((41:ℝ)/8192)) ∧
      calculate_power_db (List.replicate 50 ((41:ℝ)/8192)) < -40) ∧
    analyze_audio (.file (some ⟨1, 2, 44100, List.replicate 50 (164:ℤ)⟩)) =
      { frequency := 0.0,
        power := calculate_power_db (List.replicate 50 ((41:ℝ)/8192)),
        surface_tension := 0.0, noise_status := "NOISE", confidence := 0.6 } ∧
    (0.6 : ℝ) ≠ 0.5 := by
  have hlb : (-50:ℝ) ≤ calculate_power_db (List.replicate 50 ((41:ℝ)/8192)) := by
    rw [power_db_weak_const]
    linarith [le_logb_41_8192]
  have hub : calculate_power_db (List.replicate 50 ((41:ℝ)/8192)) < -40 := by
    rw [power_db_weak_const]
    linarith [logb_41_8192_lt]
  have hn50 : ¬ calculate_power_db (List.replicate 50 ((41:ℝ)/8192)) < -50 :=
    not_lt.mpr hlb
  have hfreq : find_dominant_frequency_fft (List.replicate 50 ((41:ℝ)/8192)) 44100 = 0.0 := by
    rw [find_dominant_frequency_fft]
    simp
  have hflat : calculate_spectral_flatness_fft (List.replicate 50 ((41:ℝ)/8192)) = 0.0 := by
    rw [calculate_spectral_flatness_fft]
    simp
  have hcls : classify_noise 0.0 (calculate_power_db (List.replicate 50 ((41:ℝ)/8192))) 0.0 =
      ("NOISE", 0.6) := by
    rw [classify_noise, if_pos hub]
  refine ⟨⟨hlb, hub⟩, ?_, by norm_num⟩
  simp only [analyze_audio, read_wav_weak_const, List.length_replicate]
  rw [if_neg (by norm_num : ¬(50:ℕ) = 0), if_neg hn50, hfreq, hflat, hcls]

/-- Claim C6 amended: through the pipeline, the classifier's weak-signal
branch (`power_db < -40`) is unreachable exactly for power_db < -50 (the
gate exits first with confidence 0.5); for power_db in [-50, -40) the gate
does not fire and the classifier's weak-signal branch IS reached, so the
pipeline returns "NOISE" with confidence 0.6. -/
theorem claim_C6_gate_amended :
    (∀ (f : Option WavFile) (s : List ℝ) (r : ℕ), read_wav f = (s, r) →
      s.length ≠ 0 → calculate_power_db s < -50 →
      analyze_audio (.file f) =
        { frequency := 0.0, power := calculate_power_db s, surface_tension := 0.0,
          noise_status := "NOISE", confidence := 0.5 }) ∧
    (∀ (f : Option WavFile) (s : List ℝ) (r : ℕ), read_wav f = (s, r) →
      s.length ≠ 0 → -50 ≤ calculate_power_db s → calculate_power_db s < -40 →
      analyze_audio (.file f) =
        { frequency := find_dominant_frequency_fft s r,
          power := calculate_power_db s,
          surface_tension := calculate_spectral_flatness_fft s,
          noise_status := "NOISE", confidence := 0.6 }) := by
  constructor
  · intro f s r hread hne hweak
    simp [analyze_audio, hread, hne, hweak]
  · intro f s r hread hne hge hlt
    have hngate : ¬ calculate_power_db s < -50 := not_lt.mpr hge
    have hcls : classify_noise (find_dominant_frequency_fft s r)
        (calculate_power_db s) (calculate_spectral_flatness_fft s) = ("NOISE", 0.6) := by
      rw [classify_noise, if_pos hlt]
    simp [analyze_audio, hread, hne, hngate, hcls]

theorem claim_C6_gate_amended_witness :
    analyze_audio (.file (some ⟨1, 2, 44100, List.replicate 50 (164:ℤ)⟩)) =
      { frequency := find_dominant_frequency_fft (List.replicate 50 ((41:ℝ)/8192)) 44100,
        power := calculate_power_db (List.replicate 50 ((41:ℝ)/8192)),
        surface_tension := calculate_spectral_flatness_fft (List.replicate 50 ((41:ℝ)/8192)),
        noise_status := "NOISE", confidence := 0.6 } :=
  claim_C6_gate_amended.2 _ _ _ read_wav_weak_const (by simp)
    (by rw [power_db_weak_const]; linarith [le_logb_41_8192])
    (by rw [power_db_weak_const]; linarith [logb_41_8192_lt])

end DspAnalyzer
